import Mathlib

/-!
Shallow embedding of `autogen/oai/anthropic.py` (the `AnthropicClient`
message-translation module) and verification of its specification claims.

Python dictionaries are modelled as association lists preserving insertion
order; JSON-ish runtime values are modelled by the inductive `Val`; faults
(KeyError, IndexError, AttributeError, TypeError) are modelled by
`Except String`.
-/

namespace Anthropic

/-- A JSON-ish Python runtime value, as manipulated by the module. -/
inductive Val where
  | vstr (s : String)
  | vnat (n : Nat)
  | vbool (b : Bool)
  | vlist (xs : List Val)
  | vobj (fields : List (String × Val))

/-- A Python dict: an association list of string keys, preserving insertion
order (as Python dicts do). -/
abbrev Dict := List (String × Val)

/-- Python `v == "s"` where `s` is a string literal: true only for an equal
string value, false (never a fault) on any other runtime value. -/
def isStrEq (v : Val) (s : String) : Bool :=
  match v with
  | Val.vstr t => t = s
  | _ => false

/-- Dict key lookup (`d[k]` when it succeeds, `d.get(k)` otherwise). -/
def dget : Dict → String → Option Val
  | [], _ => none
  | (k, v) :: rest, key => if k = key then some v else dget rest key

/-- `k in d` for a Python dict. -/
def dmem (d : Dict) (k : String) : Bool :=
  d.any (fun p => p.1 = k)

/-- `d[k] = v` for a Python dict: replace in place if the key is present,
append at the end otherwise. -/
def dset (d : Dict) (k : String) (v : Val) : Dict :=
  if dmem d k then d.map (fun p => if p.1 = k then (k, v) else p)
  else d ++ [(k, v)]

/-- `d.pop(k)` minus the returned value: remove the key from the dict. -/
def dremove (d : Dict) (k : String) : Dict :=
  d.filter (fun p => ¬ p.1 = k)

/-- `d[k]` with the KeyError fault made explicit. -/
def getKey (d : Dict) (k : String) : Except String Val :=
  match dget d k with
  | some v => .ok v
  | none => .error ("KeyError: " ++ k)

/-- Coerce a value that the Python code uses as a list (TypeError fault
otherwise). -/
def asList : Val → Except String (List Val)
  | Val.vlist xs => .ok xs
  | _ => .error "TypeError: expected a list"

/-- Coerce a value that the Python code uses as a dict (TypeError fault
otherwise). -/
def asObj : Val → Except String Dict
  | Val.vobj d => .ok d
  | _ => .error "TypeError: expected a dict"

/-- The field set of the anthropic SDK `Message` pydantic model
(`Message.model_fields`), which `pop_invalid_message_keys` introspects:
`id, content, model, role, stop_reason, stop_sequence, type, usage`. -/
def messageModelFields : List String :=
  ["id", "content", "model", "role", "stop_reason", "stop_sequence", "type", "usage"]

/-- `pop_invalid_message_keys`: keep only `Message`-model keys in every
message and collect the unrecognized keys of the last message; `messages[-1]`
faults with IndexError on an empty list. -/
def pop_invalid_message_keys (messages : List Dict) :
    Except String (List Dict × Dict) :=
  match messages.getLast? with
  | none => .error "IndexError: list index out of range"
  | some last =>
      .ok (messages.map (fun m => m.filter (fun p => messageModelFields.contains p.1)),
           last.filter (fun p => ¬ messageModelFields.contains p.1))

/-- The `_last_tooluse_status` instance dict: at most one remembered think
text and at most one remembered (dumped) tool_use block. -/
structure ToolUseStatus where
  think : Option String
  tool_use : Option Dict

/-- `restore_last_tooluse_status`: rebuild the assistant continuation turn
from the cache; faults with KeyError when no tool_use was ever remembered. -/
def restore_last_tooluse_status (st : ToolUseStatus) : Except String Dict :=
  match st.tool_use with
  | none => .error "KeyError: tool_use"
  | some tu =>
      let cached : List Val :=
        (match st.think with
         | some t => [Val.vobj [("type", Val.vstr "text"), ("text", Val.vstr t)]]
         | none => []) ++ [Val.vobj tu]
      .ok [("role", Val.vstr "assistant"), ("content", Val.vlist cached)]

/-- `return_function_call_result`: wrap a function-role turn content as a
single tool_result block addressed to the cached tool_use id; faults with
KeyError when no tool_use was ever remembered. -/
def return_function_call_result (st : ToolUseStatus) (result : Val) :
    Except String Dict :=
  match st.tool_use with
  | none => .error "KeyError: tool_use"
  | some tu =>
      match dget tu "id" with
      | none => .error "KeyError: id"
      | some idv =>
          .ok [("role", Val.vstr "user"),
               ("content", Val.vlist
                 [Val.vobj [("type", Val.vstr "tool_result"),
                            ("tool_use_id", idv),
                            ("content", result)]])]

/-- `convert_tools_to_functions`: collect `tool["function"]` from the tools
whose `type` key equals `"function"` and that carry a `function` key. -/
def convert_tools_to_functions (tools : List Val) : Except String (List Val) :=
  tools.foldlM
    (fun acc tv => do
      let tool ← asObj tv
      let isFn :=
        (match dget tool "type" with
         | some v => isStrEq v "function"
         | none => false) && dmem tool "function"
      match dget tool "function" with
      | some f => if isFn then pure (acc ++ [f]) else pure acc
      | none => pure acc)
    []

/-- Lines 81-83 of `create`: when `"tools"` is present, append the converted
functions to `params["functions"]` (defaulting to `[]`), mutating the
caller-owned params dict in place. -/
def addToolsAsFunctions (params : Dict) : Except String Dict :=
  match dget params "tools" with
  | none => .ok params
  | some tv => do
      let tools ← asList tv
      let conv ← convert_tools_to_functions tools
      let existing ←
        match dget params "functions" with
        | none => pure ([] : List Val)
        | some fv => asList fv
      pure (dset params "functions" (Val.vlist (existing ++ conv)))

/-- One iteration of the translation loop in `create` (lines 88-103):
`message` is the schema-filtered turn, `old_message` the original turn; the
accumulator carries the params dict (for the `system` write) and the
processed messages built so far. -/
def processTurn (st : ToolUseStatus) (acc : Dict × List Dict)
    (mp : Dict × Dict) : Except String (Dict × List Dict) := do
  let ps := acc.1
  let out := acc.2
  let message := mp.1
  let old_message := mp.2
  let roleV ← getKey message "role"
  if isStrEq roleV "system" then do
    let c ← getKey message "content"
    pure (dset ps "system" c, out)
  else if isStrEq roleV "function" then do
    let c ← getKey message "content"
    let r ← return_function_call_result st c
    pure (ps, out ++ [r])
  else if dmem old_message "function_call" then do
    let r ← restore_last_tooluse_status st
    pure (ps, out ++ [r])
  else do
    let c ← getKey message "content"
    if isStrEq c "" then
      pure (ps, out ++ [dset message "content"
        (Val.vstr "I\x27m done. Please send TERMINATE")])
    else
      pure (ps, out ++ [message])

/-- The translation loop of `create` over the zipped (filtered, original)
turn pairs. -/
def translateLoop (st : ToolUseStatus) :
    Dict × List Dict → List (Dict × Dict) → Except String (Dict × List Dict)
  | acc, [] => .ok acc
  | acc, mp :: rest => do
      let acc2 ← processTurn st acc mp
      translateLoop st acc2 rest

/-- `openai_func_to_anthropic`: copy the declaration and rename
`parameters` to `input_schema` (KeyError when `parameters` is absent). -/
def openai_func_to_anthropic (fv : Val) : Except String Val := do
  let f ← asObj fv
  match dget f "parameters" with
  | none => .error "KeyError: parameters"
  | some ps => pure (Val.vobj (dset (dremove f "parameters") "input_schema" ps))

/-- Lines 113-120 of `create`, operating on the copy of the params dict:
force `stream` off, pop the mandatory `model_client_cls` key (KeyError when
absent), default `max_tokens` to 4096, and turn the `functions` list into
anthropic-shaped `tools`. -/
def finalizeRequest (p0 : Dict) : Except String Dict := do
  let p := dset p0 "stream" (Val.vbool false)
  match dget p "model_client_cls" with
  | none => .error "KeyError: model_client_cls"
  | some _ => do
      let p := dremove p "model_client_cls"
      let p := dset p "max_tokens" ((dget p "max_tokens").getD (Val.vnat 4096))
      match dget p "functions" with
      | none => pure p
      | some fv => do
          let fl ← asList fv
          let fl2 ← fl.mapM openai_func_to_anthropic
          pure (dset (dremove p "functions") "tools" (Val.vlist fl2))

/-- `create` (the translation part, transport call excluded): returns the
caller-visible final state of the params dict (as of line 105, before the
copy) together with the outbound request dict handed to the transport. -/
def create (params : Dict) (st : ToolUseStatus) :
    Except String (Dict × Dict) := do
  let params1 ← addToolsAsFunctions params
  let rawVal ← getKey params1 "messages"
  let rawList ← asList rawVal
  let rawMsgs ← rawList.mapM asObj
  let vi ← pop_invalid_message_keys rawMsgs
  let acc ← translateLoop st (params1, []) (vi.1.zip rawMsgs)
  let callerParams := dset acc.1 "messages" (Val.vlist (acc.2.map Val.vobj))
  let outbound ← finalizeRequest callerParams
  pure (callerParams, outbound)

mutual

/-- `json.dumps` on a runtime value, with the default Python separators. -/
def dumpsVal : Val → String
  | Val.vstr s => "\"" ++ s ++ "\""
  | Val.vnat n => toString n
  | Val.vbool b => if b then "true" else "false"
  | Val.vlist xs => "[" ++ dumpsList xs ++ "]"
  | Val.vobj fs => "\x7b" ++ dumpsObj fs ++ "\x7d"

/-- `json.dumps` of the elements of a list, comma separated. -/
def dumpsList : List Val → String
  | [] => ""
  | [x] => dumpsVal x
  | x :: xs => dumpsVal x ++ ", " ++ dumpsList xs

/-- `json.dumps` of the fields of an object, comma separated. -/
def dumpsObj : List (String × Val) → String
  | [] => ""
  | [(k, v)] => "\"" ++ k ++ "\": " ++ dumpsVal v
  | (k, v) :: fs => "\"" ++ k ++ "\": " ++ dumpsVal v ++ ", " ++ dumpsObj fs

end

/-- A content block of an anthropic response: a `TextBlock` (fields `text`,
`type`) or a `ToolUseBlock` (fields `id`, `input`, `name`, `type`). Neither
kind has a `message` attribute. -/
inductive Block where
  | text (t : String)
  | toolUse (id name : String) (input : Val)

/-- `block.model_dump()` for a content block (pydantic field order). -/
def Block.dump : Block → Dict
  | Block.text t => [("text", Val.vstr t), ("type", Val.vstr "text")]
  | Block.toolUse i n inp =>
      [("id", Val.vstr i), ("input", inp), ("name", Val.vstr n),
       ("type", Val.vstr "tool_use")]

/-- An element of the value `message_retrieval` returns: a plain text
string, a function-call-shaped `ChatCompletionMessage` (content `None`,
role `assistant`, a `function_call` with name and JSON-encoded arguments),
or the single `None` returned for an empty response. -/
inductive RetMsg where
  | textMsg (t : String)
  | fnCall (name : String) (arguments : String)
  | nullMsg
  deriving Repr, DecidableEq

/-- `response_to_openai_message`: build the function-call-shaped assistant
message from a tool_use block dump (the block id is dumped but unused). -/
def response_to_openai_message (_i n : String) (inp : Val) : RetMsg :=
  RetMsg.fnCall n (dumpsVal inp)

/-- One iteration of the tool-enabled loop of `message_retrieval`: a
tool_use block is converted and inserted at the front of the result and its
dump remembered in the cache; any other block has its text appended and
remembered as the think text. -/
def mrStep (acc : List RetMsg × ToolUseStatus) (c : Block) :
    List RetMsg × ToolUseStatus :=
  match c with
  | Block.toolUse i n inp =>
      (response_to_openai_message i n inp :: acc.1,
       { acc.2 with tool_use := some (Block.dump (Block.toolUse i n inp)) })
  | Block.text t =>
      (acc.1 ++ [RetMsg.textMsg t], { acc.2 with think := some t })

/-- `message_retrieval`: empty content yields `[None]`; with tool support
enabled the blocks are folded through `mrStep` (returning the result list
and the updated cache); with tool support disabled the code evaluates
`choice.message.function_call` on a content block, which has no `message`
attribute, so any nonempty content faults with AttributeError. -/
def message_retrieval (toolEnabled : Bool) (st : ToolUseStatus)
    (content : List Block) : Except String (List RetMsg × ToolUseStatus) :=
  if content.length = 0 then .ok ([RetMsg.nullMsg], st)
  else if toolEnabled then .ok (content.foldl mrStep ([], st))
  else .error "AttributeError: message"

/-- Modelled from the spec: the static price table `ANTHROPIC_PRICE1MM`
lives in `openai_utils`, which is not among the sources here; the spec
describes it as a static mapping from model identifier to a per-million
token cost pair `(input, output)`. We model it as an association-list
parameter with exact rational prices. -/
abbrev PriceTable := List (String × (ℚ × ℚ))

/-- Price-table lookup (`model in table` / `table[model]`). -/
def priceLookup : PriceTable → String → Option (ℚ × ℚ)
  | [], _ => none
  | (k, v) :: rest, key => if k = key then some v else priceLookup rest key

/-- `cost`: token counts default to 0 when the response carries no usage;
an unlisted model prices to 0 without raising; otherwise the total is
`input_tokens * price.input / 1_000_000 + output_tokens * price.output /
1_000_000` (accumulated starting from 0.0 in input, output order). -/
def cost (table : PriceTable) (model : String) (usage : Option (Nat × Nat)) : ℚ :=
  let tokensInput : ℚ := match usage with | some u => (u.1 : ℚ) | none => 0
  let tokensOutput : ℚ := match usage with | some u => (u.2 : ℚ) | none => 0
  match priceLookup table model with
  | none => 0
  | some price => 0 + tokensInput * price.1 / 1000000 + tokensOutput * price.2 / 1000000

/-- Whether a returned element is a function-call-shaped assistant message. -/
def isFnMsg : RetMsg → Bool
  | RetMsg.fnCall _ _ => true
  | _ => false

/-- Whether a content block is a tool_use block. -/
def isToolUseBlock : Block → Bool
  | Block.toolUse _ _ _ => true
  | _ => false

/-- The function-call-shaped message a tool_use block converts to (none for
a text block). -/
def blockFn : Block → Option RetMsg
  | Block.toolUse i n inp => some (response_to_openai_message i n inp)
  | Block.text _ => none

/-- The plain-content element a text block converts to (none for a
tool_use block). -/
def blockText : Block → Option RetMsg
  | Block.text t => some (RetMsg.textMsg t)
  | _ => none

/-- The translation `create` applies to a single conversation turn: the
turn is schema-filtered exactly as `pop_invalid_message_keys` does, then run
through one iteration of the translation loop (with the params component,
which only receives the `system` write, projected away). -/
def translateTurn (st : ToolUseStatus) (m : Dict) : Except String (List Dict) := do
  let acc ← processTurn st ([], [])
    (m.filter (fun p => messageModelFields.contains p.1), m)
  pure acc.2

/-- `translateTurn` over a sequence of turns, concatenating the emitted
turns as the loop in `create` does. -/
def translateTurns (st : ToolUseStatus) (ms : List Dict) :
    Except String (List Dict) :=
  ms.foldlM (fun acc m => do
    let r ← translateTurn st m
    pure (acc ++ r)) []

/-- Concrete request params used to exhibit request-time mutation: a
`model_client_cls` key, a system turn and a user turn. -/
def cexParams : Dict :=
  [("model_client_cls", Val.vstr "AnthropicClient"),
   ("messages", Val.vlist
     [Val.vobj [("role", Val.vstr "system"), ("content", Val.vstr "be nice")],
      Val.vobj [("role", Val.vstr "user"), ("content", Val.vstr "hi")]])]

/-- The caller-visible value of the params dict after `create` ran on
`cexParams`: the system turn content has been written into a new `system`
key and the `messages` value replaced by the processed list. -/
def cexParamsAfter : Dict :=
  [("model_client_cls", Val.vstr "AnthropicClient"),
   ("messages", Val.vlist
     [Val.vobj [("role", Val.vstr "user"), ("content", Val.vstr "hi")]]),
   ("system", Val.vstr "be nice")]

/-- The outbound request `create` builds from `cexParams`: `stream` forced
off, `model_client_cls` popped, `max_tokens` defaulted. -/
def cexOutbound : Dict :=
  [("messages", Val.vlist
     [Val.vobj [("role", Val.vstr "user"), ("content", Val.vstr "hi")]]),
   ("system", Val.vstr "be nice"),
   ("stream", Val.vbool false),
   ("max_tokens", Val.vnat 4096)]

@[simp] theorem ok_bind {α β : Type} (a : α) (f : α → Except String β) :
    (Except.ok a : Except String α) >>= f = f a := rfl

@[simp] theorem error_bind {α β : Type} (e : String) (f : α → Except String β) :
    (Except.error e : Except String α) >>= f = Except.error e := rfl

@[simp] theorem pure_eq_ok {α : Type} (a : α) :
    (pure a : Except String α) = Except.ok a := rfl

@[simp] theorem isStrEq_vstr (t s : String) :
    isStrEq (Val.vstr t) s = decide (t = s) := rfl

/-- C1: within `create`, a `function`-role turn whose content is the string
`R`, translated while the cache remembers a tool_use block with id `T`, is
emitted as the turn
`(role: user, content: [(type: tool_result, tool_use_id: T, content: R)])`
appended to the processed messages. -/
theorem c1_function_role_turn_translation (st : ToolUseStatus) (tu : Dict)
    (T R : String) (ps : Dict) (out : List Dict) (message old_message : Dict)
    (htu : st.tool_use = some tu)
    (hid : dget tu "id" = some (Val.vstr T))
    (hrole : dget message "role" = some (Val.vstr "function"))
    (hcontent : dget message "content" = some (Val.vstr R)) :
    processTurn st (ps, out) (message, old_message) =
      Except.ok (ps, out ++
        [[("role", Val.vstr "user"),
          ("content", Val.vlist
            [Val.vobj [("type", Val.vstr "tool_result"),
                       ("tool_use_id", Val.vstr T),
                       ("content", Val.vstr R)]])]]) := by
  simp [processTurn, getKey, hrole, hcontent, isStrEq,
        return_function_call_result, htu, hid]

/-- Witness for C1 at a concrete cache and turn. -/
theorem c1_witness :
    processTurn ⟨none, some [("id", Val.vstr "t1")]⟩
      ([], []) ([("role", Val.vstr "function"), ("content", Val.vstr "42")],
                [("role", Val.vstr "function"), ("content", Val.vstr "42")]) =
      Except.ok (([] : Dict), ([] : List Dict) ++
        [[("role", Val.vstr "user"),
          ("content", Val.vlist
            [Val.vobj [("type", Val.vstr "tool_result"),
                       ("tool_use_id", Val.vstr "t1"),
                       ("content", Val.vstr "42")]])]]) :=
  c1_function_role_turn_translation ⟨none, some [("id", Val.vstr "t1")]⟩
    [("id", Val.vstr "t1")] "t1" "42" [] []
    [("role", Val.vstr "function"), ("content", Val.vstr "42")]
    [("role", Val.vstr "function"), ("content", Val.vstr "42")]
    rfl rfl rfl rfl

/-- C2 (code bug evidence): with tool capability disabled, the legacy
branch of `message_retrieval` evaluates `choice.message.function_call` on a
content block, which has no `message` attribute, so the response whose
content is exactly one text block `"hello"` faults with AttributeError
instead of returning `["hello"]`. -/
theorem c2_legacy_text_block_faults :
    message_retrieval false ⟨none, none⟩ [Block.text "hello"] =
      Except.error "AttributeError: message" := rfl

/-- C5: while no tool_use block was ever remembered in the cache, both
recall operations fault with an unhandled missing-key (KeyError) fault
rather than returning a value. -/
theorem c5_recall_before_remember_faults (st : ToolUseStatus) (r : Val)
    (h : st.tool_use = none) :
    restore_last_tooluse_status st = Except.error "KeyError: tool_use" ∧
    return_function_call_result st r = Except.error "KeyError: tool_use" := by
  refine ⟨?_, ?_⟩ <;>
    simp [restore_last_tooluse_status, return_function_call_result, h]

/-- Witness for C5 on the freshly initialized (empty) cache. -/
theorem c5_witness :
    restore_last_tooluse_status ⟨none, none⟩ =
      Except.error "KeyError: tool_use" ∧
    return_function_call_result ⟨none, none⟩ (Val.vstr "42") =
      Except.error "KeyError: tool_use" :=
  c5_recall_before_remember_faults ⟨none, none⟩ (Val.vstr "42") rfl

/-- C6: within `create`, a turn whose role is neither `system` nor
`function` and whose original form carries no function_call marker is
emitted with its content replaced by the termination sentinel when the
content is the empty string, and unchanged otherwise. -/
theorem c6_empty_content_sentinel (st : ToolUseStatus) (ps : Dict)
    (out : List Dict) (message old_message : Dict) (r : String) (c : Val)
    (hrole : dget message "role" = some (Val.vstr r))
    (hr1 : r ≠ "system") (hr2 : r ≠ "function")
    (hfc : dmem old_message "function_call" = false)
    (hcontent : dget message "content" = some c) :
    processTurn st (ps, out) (message, old_message) =
      Except.ok (ps, out ++
        [if isStrEq c "" then
           dset message "content" (Val.vstr "I\x27m done. Please send TERMINATE")
         else message]) := by
  cases hc : isStrEq c "" <;>
    simp [processTurn, getKey, hrole, hcontent, hr1, hr2, hfc, hc]

/-- Witness for C6: an empty user turn gets the sentinel, a nonempty one is
passed through unchanged. -/
theorem c6_witness :
    processTurn ⟨none, none⟩ ([], [])
      ([("role", Val.vstr "user"), ("content", Val.vstr "")],
       [("role", Val.vstr "user"), ("content", Val.vstr "")]) =
      Except.ok (([] : Dict), ([] : List Dict) ++
        [if isStrEq (Val.vstr "") "" then
           dset [("role", Val.vstr "user"), ("content", Val.vstr "")]
             "content" (Val.vstr "I\x27m done. Please send TERMINATE")
         else [("role", Val.vstr "user"), ("content", Val.vstr "")]]) :=
  c6_empty_content_sentinel ⟨none, none⟩ [] []
    [("role", Val.vstr "user"), ("content", Val.vstr "")]
    [("role", Val.vstr "user"), ("content", Val.vstr "")]
    "user" (Val.vstr "") rfl (by decide) (by decide) rfl rfl

/-- A successful price lookup comes from an entry of the table. -/
theorem priceLookup_mem (table : PriceTable) (model : String) (p : ℚ × ℚ)
    (h : priceLookup table model = some p) : (model, p) ∈ table := by
  induction table with
  | nil => simp [priceLookup] at h
  | cons hd tl ih =>
    rw [priceLookup] at h
    by_cases hk : hd.1 = model
    · rw [if_pos hk] at h
      cases h
      have hhd : (model, hd.2) = hd := by
        cases hd
        simp_all
      rw [hhd]
      exact List.mem_cons_self _ _
    · rw [if_neg hk] at h
      exact List.mem_cons_of_mem _ (ih h)

/-- C8: when the model is listed, `cost` equals
`input_tokens * price.input / 1_000_000 + output_tokens * price.output /
1_000_000`; when the model is unlisted the cost is exactly 0 without any
fault; and with non-negative table prices the result is non-negative. -/
theorem c8_cost_formula (table : PriceTable) (model : String) (i o : Nat)
    (u : Option (Nat × Nat)) (price : ℚ × ℚ)
    (hnn : ∀ p ∈ table, 0 ≤ p.2.1 ∧ 0 ≤ p.2.2) :
    (priceLookup table model = some price →
       cost table model (some (i, o)) =
         (i : ℚ) * price.1 / 1000000 + (o : ℚ) * price.2 / 1000000) ∧
    (priceLookup table model = none → cost table model u = 0) ∧
    0 ≤ cost table model u := by
  refine ⟨?_, ?_, ?_⟩
  · intro h
    simp [cost, h]
  · intro h
    simp [cost, h]
  · cases h : priceLookup table model with
    | none => simp [cost, h]
    | some p =>
      have hp := hnn (model, p) (priceLookup_mem table model p h)
      have h6 : (0 : ℚ) ≤ 1000000 := by norm_num
      cases u with
      | none => simp [cost, h]
      | some uu =>
        have h1 : (0 : ℚ) ≤ (uu.1 : ℚ) * p.1 / 1000000 :=
          div_nonneg (mul_nonneg (Nat.cast_nonneg _) hp.1) h6
        have h2 : (0 : ℚ) ≤ (uu.2 : ℚ) * p.2 / 1000000 :=
          div_nonneg (mul_nonneg (Nat.cast_nonneg _) hp.2) h6
        simp only [cost, h]
        linarith

/-- Witness for C8 at a one-entry table, a listed and an unlisted model. -/
theorem c8_witness :
    cost [("claude-x", ((3 : ℚ), 15))] "claude-x" (some (100, 50)) =
      ((100 : Nat) : ℚ) * 3 / 1000000 + ((50 : Nat) : ℚ) * 15 / 1000000 ∧
    cost [("claude-x", ((3 : ℚ), 15))] "unlisted" (some (100, 50)) = 0 ∧
    0 ≤ cost [("claude-x", ((3 : ℚ), 15))] "claude-x" (some (100, 50)) := by
  refine ⟨(c8_cost_formula [("claude-x", ((3 : ℚ), 15))] "claude-x" 100 50
            (some (100, 50)) ((3 : ℚ), 15) ?_).1 rfl,
          (c8_cost_formula [("claude-x", ((3 : ℚ), 15))] "unlisted" 100 50
            (some (100, 50)) ((3 : ℚ), 15) ?_).2.1 rfl,
          (c8_cost_formula [("claude-x", ((3 : ℚ), 15))] "claude-x" 100 50
            (some (100, 50)) ((3 : ℚ), 15) ?_).2.2⟩ <;>
    · intro p hp
      simp only [List.mem_singleton] at hp
      subst hp
      exact ⟨by norm_num, by norm_num⟩

/-- Structure of the tool-enabled fold of `message_retrieval`: tool_use
blocks pile up (reversed) in front of the seed, text blocks append after
it in order. -/
theorem foldl_mrStep_fst (content : List Block) (l : List RetMsg)
    (st : ToolUseStatus) :
    (content.foldl mrStep (l, st)).1 =
      (content.filterMap blockFn).reverse ++ l ++ content.filterMap blockText := by
  induction content generalizing l st with
  | nil => simp
  | cons c cs ih =>
    cases c with
    | text t => simp [mrStep, blockFn, blockText, List.foldl_cons, ih]
    | toolUse i n inp => simp [mrStep, blockFn, blockText, List.foldl_cons, ih]

/-- Every element contributed by a tool_use block is function-call shaped. -/
theorem mem_blockFn_isFn {m : RetMsg} {content : List Block}
    (h : m ∈ content.filterMap blockFn) : isFnMsg m = true := by
  rcases List.mem_filterMap.mp h with ⟨b, _, hb⟩
  cases b with
  | text t => simp [blockFn] at hb
  | toolUse i n inp =>
      simp [blockFn, response_to_openai_message] at hb
      rw [← hb]
      rfl

/-- Every element contributed by a text block is a plain string, not
function-call shaped. -/
theorem mem_blockText_notFn {m : RetMsg} {content : List Block}
    (h : m ∈ content.filterMap blockText) : isFnMsg m = false := by
  rcases List.mem_filterMap.mp h with ⟨b, _, hb⟩
  cases b with
  | toolUse i n inp => simp [blockText] at hb
  | text t =>
      simp [blockText] at hb
      rw [← hb]
      rfl

/-- C4: with tool capability enabled and at least one tool_use block in the
response content, the list `message_retrieval` returns consists of all its
function-call-shaped messages followed by all its text-derived elements:
every tool_use-derived message precedes every text-derived element,
regardless of the blocks' original positions. -/
theorem c4_tooluse_before_text (st st2 : ToolUseStatus)
    (content : List Block) (res : List RetMsg)
    (hany : content.any isToolUseBlock = true)
    (h : message_retrieval true st content = Except.ok (res, st2)) :
    res = res.filter isFnMsg ++ res.filter (fun m => !(isFnMsg m)) := by
  have hne : content.length ≠ 0 := by
    cases content with
    | nil => simp [List.any] at hany
    | cons c cs => simp
  rw [message_retrieval, if_neg hne, if_pos rfl] at h
  have hres : res = (content.foldl mrStep ([], st)).1 := by
    have := congrArg (fun x => match x with
      | Except.ok (p : List RetMsg × ToolUseStatus) => p.1
      | Except.error _ => []) h
    simpa using this.symm
  rw [foldl_mrStep_fst] at hres
  simp only [List.append_nil] at hres
  have hfil1 : res.filter isFnMsg = (content.filterMap blockFn).reverse := by
    rw [hres, List.filter_append]
    have e1 : ((content.filterMap blockFn).reverse).filter isFnMsg =
        (content.filterMap blockFn).reverse := by
      rw [List.filter_eq_self]
      intro a ha
      exact mem_blockFn_isFn (List.mem_reverse.mp ha)
    have e2 : (content.filterMap blockText).filter isFnMsg = [] := by
      rw [List.filter_eq_nil_iff]
      intro a ha
      simp [mem_blockText_notFn ha]
    rw [e1, e2, List.append_nil]
  have hfil2 : res.filter (fun m => !(isFnMsg m)) =
      content.filterMap blockText := by
    rw [hres, List.filter_append]
    have e1 : ((content.filterMap blockFn).reverse).filter
        (fun m => !(isFnMsg m)) = [] := by
      rw [List.filter_eq_nil_iff]
      intro a ha
      simp [mem_blockFn_isFn (List.mem_reverse.mp ha)]
    have e2 : (content.filterMap blockText).filter (fun m => !(isFnMsg m)) =
        content.filterMap blockText := by
      rw [List.filter_eq_self]
      intro a ha
      simp [mem_blockText_notFn ha]
    rw [e1, e2, List.nil_append]
  rw [hfil1, hfil2, hres]

/-- Witness for C4: a text block followed by a tool_use block; the
function-call message still comes first. -/
theorem c4_witness :
    [RetMsg.fnCall "search" "\x7b\"q\": \"x\"\x7d", RetMsg.textMsg "a"] =
      List.filter isFnMsg
        [RetMsg.fnCall "search" "\x7b\"q\": \"x\"\x7d", RetMsg.textMsg "a"] ++
      List.filter (fun m => !(isFnMsg m))
        [RetMsg.fnCall "search" "\x7b\"q\": \"x\"\x7d", RetMsg.textMsg "a"] :=
  c4_tooluse_before_text ⟨none, none⟩
    ⟨some "a",
     some [("id", Val.vstr "t1"), ("input", Val.vobj [("q", Val.vstr "x")]),
           ("name", Val.vstr "search"), ("type", Val.vstr "tool_use")]⟩
    [Block.text "a", Block.toolUse "t1" "search" (Val.vobj [("q", Val.vstr "x")])]
    [RetMsg.fnCall "search" "\x7b\"q\": \"x\"\x7d", RetMsg.textMsg "a"]
    rfl rfl

/-- C9: with tool capability enabled and two or more tool_use blocks in the
response content, the function-call-shaped messages of the returned list
appear in the reverse of the blocks' order of appearance (each is inserted
at position 0 of the result). -/
theorem c9_tooluse_reversed (st st2 : ToolUseStatus)
    (content : List Block) (res : List RetMsg)
    (h2 : 2 ≤ (content.filter isToolUseBlock).length)
    (h : message_retrieval true st content = Except.ok (res, st2)) :
    res.filter isFnMsg = (content.filterMap blockFn).reverse := by
  have hne : content.length ≠ 0 := by
    cases content with
    | nil => simp [List.filter] at h2
    | cons c cs => simp
  rw [message_retrieval, if_neg hne, if_pos rfl] at h
  have hres : res = (content.foldl mrStep ([], st)).1 := by
    have := congrArg (fun x => match x with
      | Except.ok (p : List RetMsg × ToolUseStatus) => p.1
      | Except.error _ => []) h
    simpa using this.symm
  rw [foldl_mrStep_fst] at hres
  simp only [List.append_nil] at hres
  rw [hres, List.filter_append]
  have e1 : ((content.filterMap blockFn).reverse).filter isFnMsg =
      (content.filterMap blockFn).reverse := by
    rw [List.filter_eq_self]
    intro a ha
    exact mem_blockFn_isFn (List.mem_reverse.mp ha)
  have e2 : (content.filterMap blockText).filter isFnMsg = [] := by
    rw [List.filter_eq_nil_iff]
    intro a ha
    simp [mem_blockText_notFn ha]
  rw [e1, e2, List.append_nil]

/-- Witness for C9: two tool_use blocks around a text block come out in
reverse order. -/
theorem c9_witness :
    List.filter isFnMsg
      [RetMsg.fnCall "second" "\"y\"", RetMsg.fnCall "first" "\"x\"",
       RetMsg.textMsg "a"] =
      (List.filterMap blockFn
        [Block.toolUse "t1" "first" (Val.vstr "x"), Block.text "a",
         Block.toolUse "t2" "second" (Val.vstr "y")]).reverse :=
  c9_tooluse_reversed ⟨none, none⟩
    ⟨some "a",
     some [("id", Val.vstr "t2"), ("input", Val.vstr "y"),
           ("name", Val.vstr "second"), ("type", Val.vstr "tool_use")]⟩
    [Block.toolUse "t1" "first" (Val.vstr "x"), Block.text "a",
     Block.toolUse "t2" "second" (Val.vstr "y")]
    [RetMsg.fnCall "second" "\"y\"", RetMsg.fnCall "first" "\"x\"",
     RetMsg.textMsg "a"]
    (by decide) rfl

/-- C7: a turn that carries only `Message`-model fields, whose role is
neither `system` nor `function`, with no function_call marker and nonempty
string-equal content test is emitted unchanged by the per-turn translation,
so running the translation a second time over its output changes nothing. -/
theorem c7_translation_idempotent (st : ToolUseStatus) (m : Dict)
    (r : String) (c : Val)
    (hvalid : m.all (fun p => messageModelFields.contains p.1) = true)
    (hrole : dget m "role" = some (Val.vstr r))
    (hr1 : r ≠ "system") (hr2 : r ≠ "function")
    (hfc : dmem m "function_call" = false)
    (hcontent : dget m "content" = some c)
    (hc : isStrEq c "" = false) :
    translateTurn st m = Except.ok [m] ∧
    (translateTurns st [m] >>= translateTurns st) = translateTurns st [m] := by
  have hfilter : m.filter (fun p => messageModelFields.contains p.1) = m := by
    rw [List.filter_eq_self]
    intro a ha
    exact List.all_eq_true.mp hvalid a ha
  have h1 : translateTurn st m = Except.ok [m] := by
    unfold translateTurn
    rw [hfilter]
    simp [processTurn, getKey, hrole, hcontent, hr1, hr2, hfc, hc]
  have h2 : translateTurns st [m] = Except.ok [m] := by
    simp [translateTurns, List.foldlM, h1]
  refine ⟨h1, ?_⟩
  rw [h2]
  simpa using h2

/-- Witness for C7 at a concrete already-target-shaped user turn. -/
theorem c7_witness :
    translateTurn ⟨none, none⟩
      [("role", Val.vstr "user"), ("content", Val.vstr "hi")] =
      Except.ok [[("role", Val.vstr "user"), ("content", Val.vstr "hi")]] ∧
    (translateTurns ⟨none, none⟩
        [[("role", Val.vstr "user"), ("content", Val.vstr "hi")]] >>=
      translateTurns ⟨none, none⟩) =
      translateTurns ⟨none, none⟩
        [[("role", Val.vstr "user"), ("content", Val.vstr "hi")]] :=
  c7_translation_idempotent ⟨none, none⟩
    [("role", Val.vstr "user"), ("content", Val.vstr "hi")]
    "user" (Val.vstr "hi") rfl rfl (by decide) (by decide) rfl rfl rfl

/-- `dget` on a cons cell, for an un-destructured head pair. -/
theorem dget_cons (x : String × Val) (rest : Dict) (key : String) :
    dget (x :: rest) key = if x.1 = key then some x.2 else dget rest key := rfl

/-- Replacing the value of key `k` in place leaves lookups of other keys
unchanged. -/
theorem dget_mapset (d : Dict) (k k2 : String) (v : Val) (h : k2 ≠ k) :
    dget (d.map (fun p => if p.1 = k then (k, v) else p)) k2 = dget d k2 := by
  induction d with
  | nil => rfl
  | cons hd tl ih =>
    obtain ⟨a, b⟩ := hd
    by_cases hk : a = k
    · subst hk
      rw [List.map_cons, if_pos (show ((a, b) : String × Val).1 = a from rfl),
         dget_cons, dget_cons]
      rw [if_neg (by simpa using Ne.symm h), if_neg (by simpa using Ne.symm h)]
      exact ih
    · rw [List.map_cons, if_neg hk, dget_cons, dget_cons]
      by_cases hk2 : a = k2
      · rw [if_pos hk2, if_pos hk2]
      · rw [if_neg hk2, if_neg hk2]
        exact ih

/-- Appending a new key `k` leaves lookups of other keys unchanged. -/
theorem dget_append_single (d : Dict) (k k2 : String) (v : Val) (h : k2 ≠ k) :
    dget (d ++ [(k, v)]) k2 = dget d k2 := by
  induction d with
  | nil => simp [dget, Ne.symm h]
  | cons hd tl ih =>
    obtain ⟨a, b⟩ := hd
    by_cases hk2 : a = k2 <;> simp [dget, hk2, ih]

/-- `dset` on key `k` leaves lookups of other keys unchanged. -/
theorem dget_dset_ne (d : Dict) (k k2 : String) (v : Val) (h : k2 ≠ k) :
    dget (dset d k v) k2 = dget d k2 := by
  unfold dset
  split
  · exact dget_mapset d k k2 v h
  · exact dget_append_single d k k2 v h

/-- Replacing the value of key `k` in place leaves membership of other keys
unchanged. -/
theorem dmem_mapset (d : Dict) (k k2 : String) (v : Val) (h : k2 ≠ k) :
    dmem (d.map (fun p => if p.1 = k then (k, v) else p)) k2 = dmem d k2 := by
  induction d with
  | nil => rfl
  | cons hd tl ih =>
    obtain ⟨a, b⟩ := hd
    by_cases hk : a = k
    · subst hk
      rw [List.map_cons, if_pos (show ((a, b) : String × Val).1 = a from rfl)]
      simp only [dmem, List.any_cons] at ih ⊢
      rw [ih]
    · rw [List.map_cons, if_neg hk]
      simp only [dmem, List.any_cons] at ih ⊢
      rw [ih]

/-- Appending a new key `k` leaves membership of other keys unchanged. -/
theorem dmem_append_single (d : Dict) (k k2 : String) (v : Val) (h : k2 ≠ k) :
    dmem (d ++ [(k, v)]) k2 = dmem d k2 := by
  simp [dmem, Ne.symm h]

/-- `dset` on key `k` leaves membership of other keys unchanged. -/
theorem dmem_dset_ne (d : Dict) (k k2 : String) (v : Val) (h : k2 ≠ k) :
    dmem (dset d k v) k2 = dmem d k2 := by
  unfold dset
  split
  · exact dmem_mapset d k k2 v h
  · exact dmem_append_single d k k2 v h

/-- A key that is not a member looks up to nothing. -/
theorem dget_eq_none_of_dmem_false (d : Dict) (k : String)
    (h : dmem d k = false) : dget d k = none := by
  induction d with
  | nil => rfl
  | cons hd tl ih =>
    obtain ⟨a, b⟩ := hd
    simp [dmem] at h
    simp [dget, h.1, ih (by simpa [dmem] using h.2)]

/-- The params component of the loop accumulator is only ever written at
key `system` by one translation step. -/
theorem processTurn_fst (st : ToolUseStatus) (acc : Dict × List Dict)
    (mp : Dict × Dict) (acc2 : Dict × List Dict)
    (h : processTurn st acc mp = Except.ok acc2) :
    acc2.1 = acc.1 ∨ ∃ c, acc2.1 = dset acc.1 "system" c := by
  unfold processTurn at h
  cases hrole : dget mp.1 "role" with
  | none => simp [getKey, hrole] at h
  | some roleV =>
    simp only [getKey, hrole, ok_bind] at h
    by_cases h1 : isStrEq roleV "system" = true
    · rw [if_pos h1] at h
      cases hcon : dget mp.1 "content" with
      | none => simp [getKey, hcon] at h
      | some c =>
        simp only [getKey, hcon, ok_bind, pure_eq_ok, Except.ok.injEq] at h
        right
        exact ⟨c, by rw [← h]⟩
    · rw [if_neg h1] at h
      by_cases h2 : isStrEq roleV "function" = true
      · rw [if_pos h2] at h
        cases hcon : dget mp.1 "content" with
        | none => simp [getKey, hcon] at h
        | some c =>
          simp only [getKey, hcon, ok_bind] at h
          cases hr : return_function_call_result st c with
          | error e => rw [hr] at h; simp at h
          | ok rr =>
            rw [hr] at h
            simp only [ok_bind, pure_eq_ok, Except.ok.injEq] at h
            left
            rw [← h]
      · rw [if_neg h2] at h
        by_cases h3 : dmem mp.2 "function_call" = true
        · rw [if_pos h3] at h
          cases hr : restore_last_tooluse_status st with
          | error e => rw [hr] at h; simp at h
          | ok rr =>
            rw [hr] at h
            simp only [ok_bind, pure_eq_ok, Except.ok.injEq] at h
            left
            rw [← h]
        · rw [if_neg h3] at h
          cases hcon : dget mp.1 "content" with
          | none => simp [getKey, hcon] at h
          | some c =>
            simp only [getKey, hcon, ok_bind] at h
            by_cases h4 : isStrEq c "" = true
            · rw [if_pos h4] at h
              simp only [pure_eq_ok, Except.ok.injEq] at h
              left
              rw [← h]
            · rw [if_neg h4] at h
              simp only [pure_eq_ok, Except.ok.injEq] at h
              left
              rw [← h]

/-- Across the whole translation loop the params dict is only written at
key `system`: lookups and membership of every other key are preserved. -/
theorem translateLoop_fst (st : ToolUseStatus) (pairs : List (Dict × Dict))
    (acc acc2 : Dict × List Dict)
    (h : translateLoop st acc pairs = Except.ok acc2)
    (k : String) (hk : k ≠ "system") :
    dget acc2.1 k = dget acc.1 k ∧ dmem acc2.1 k = dmem acc.1 k := by
  induction pairs generalizing acc with
  | nil =>
    rw [translateLoop] at h
    cases h
    exact ⟨rfl, rfl⟩
  | cons mp rest ih =>
    rw [translateLoop] at h
    cases hstep : processTurn st acc mp with
    | error e => rw [hstep] at h; simp at h
    | ok acc1 =>
      rw [hstep] at h
      simp only [ok_bind] at h
      have hrec := ih acc1 h
      rcases processTurn_fst st acc mp acc1 hstep with heq | ⟨c, heq⟩
      · rw [heq] at hrec
        exact hrec
      · rw [heq] at hrec
        rw [hrec.1, hrec.2]
        exact ⟨dget_dset_ne _ _ _ _ hk, dmem_dset_ne _ _ _ _ hk⟩

/-- The pre-loop tools handling only writes the `functions` key of the
caller params dict. -/
theorem addToolsAsFunctions_frame (params p1 : Dict)
    (h : addToolsAsFunctions params = Except.ok p1) (k : String)
    (hk : k ≠ "functions") :
    dget p1 k = dget params k ∧ dmem p1 k = dmem params k := by
  unfold addToolsAsFunctions at h
  cases ht : dget params "tools" with
  | none =>
    rw [ht] at h
    cases h
    exact ⟨rfl, rfl⟩
  | some tv =>
    simp only [ht] at h
    cases hl : asList tv with
    | error e => rw [hl] at h; simp at h
    | ok tools =>
      rw [hl] at h
      simp only [ok_bind] at h
      cases hc : convert_tools_to_functions tools with
      | error e => rw [hc] at h; simp at h
      | ok conv =>
        rw [hc] at h
        simp only [ok_bind] at h
        cases hf : dget params "functions" with
        | none =>
          simp only [hf, ok_bind, pure_eq_ok, Except.ok.injEq] at h
          rw [← h]
          exact ⟨dget_dset_ne _ _ _ _ hk, dmem_dset_ne _ _ _ _ hk⟩
        | some fv =>
          simp only [hf] at h
          cases hfl : asList fv with
          | error e => rw [hfl] at h; simp at h
          | ok fs =>
            rw [hfl] at h
            simp only [ok_bind, pure_eq_ok, Except.ok.injEq] at h
            rw [← h]
            exact ⟨dget_dset_ne _ _ _ _ hk, dmem_dset_ne _ _ _ _ hk⟩

/-- Inversion of a successful `create` run: the outbound request comes from
`finalizeRequest` on the returned caller params, and the caller params
differ from the input only at the keys `functions`, `system` and
`messages`. -/
theorem create_ok_inv (params : Dict) (st : ToolUseStatus) (p2 outb : Dict)
    (h : create params st = Except.ok (p2, outb)) :
    finalizeRequest p2 = Except.ok outb ∧
    ∀ k, k ≠ "functions" → k ≠ "system" → k ≠ "messages" →
      dget p2 k = dget params k ∧ dmem p2 k = dmem params k := by
  unfold create at h
  cases ha : addToolsAsFunctions params with
  | error e => rw [ha] at h; simp at h
  | ok params1 =>
    rw [ha] at h
    simp only [ok_bind] at h
    cases hg : getKey params1 "messages" with
    | error e => rw [hg] at h; simp at h
    | ok rawVal =>
      rw [hg] at h
      simp only [ok_bind] at h
      cases hl : asList rawVal with
      | error e => rw [hl] at h; simp at h
      | ok rawList =>
        rw [hl] at h
        simp only [ok_bind] at h
        cases hm : rawList.mapM asObj with
        | error e => rw [hm] at h; simp at h
        | ok rawMsgs =>
          rw [hm] at h
          simp only [ok_bind] at h
          cases hp : pop_invalid_message_keys rawMsgs with
          | error e => rw [hp] at h; simp at h
          | ok vi =>
            rw [hp] at h
            simp only [ok_bind] at h
            cases hloop : translateLoop st (params1, []) (vi.1.zip rawMsgs) with
            | error e => rw [hloop] at h; simp at h
            | ok acc =>
              rw [hloop] at h
              simp only [ok_bind] at h
              cases hfin : finalizeRequest
                  (dset acc.1 "messages" (Val.vlist (acc.2.map Val.vobj))) with
              | error e => rw [hfin] at h; simp at h
              | ok outbound =>
                rw [hfin] at h
                simp only [ok_bind, pure_eq_ok, Except.ok.injEq,
                           Prod.mk.injEq] at h
                obtain ⟨hp2, houtb⟩ := h
                subst houtb
                refine ⟨by rw [← hp2]; exact hfin, ?_⟩
                intro k hk1 hk2 hk3
                rw [← hp2]
                have hloopf := translateLoop_fst st (vi.1.zip rawMsgs)
                  (params1, []) acc hloop k hk2
                have hadd := addToolsAsFunctions_frame params params1 ha k hk1
                constructor
                · rw [dget_dset_ne _ _ _ _ hk3, hloopf.1]
                  exact hadd.1
                · rw [dmem_dset_ne _ _ _ _ hk3, hloopf.2]
                  exact hadd.2

/-- A successful `finalizeRequest` requires `model_client_cls` to be a
member of the params dict (it is unconditionally popped). -/
theorem finalize_needs_model_client_cls (p outb : Dict)
    (h : finalizeRequest p = Except.ok outb) :
    dmem p "model_client_cls" = true := by
  by_contra hmem
  have hfalse : dmem p "model_client_cls" = false := by
    cases hb : dmem p "model_client_cls"
    · rfl
    · exact absurd hb hmem
  have hnone : dget (dset p "stream" (Val.vbool false)) "model_client_cls"
      = none := by
    rw [dget_dset_ne _ _ _ _ (by decide)]
    exact dget_eq_none_of_dmem_false p _ hfalse
  simp only [finalizeRequest, hnone] at h
  exact Except.noConfusion h

/-- C3 is false as stated: `create` mutates the caller-owned request
mapping at request time. On `cexParams` (a conversation with a system turn)
the caller-visible params dict gains a `system` key and has its `messages`
value replaced in place before the copy is taken, so the final
caller-visible params differ from the input. -/
theorem c3_counterexample_request_mutation :
    create cexParams ⟨none, none⟩ = Except.ok (cexParamsAfter, cexOutbound) ∧
    cexParamsAfter ≠ cexParams := by
  refine ⟨rfl, ?_⟩
  intro h
  exact Bool.noConfusion (show true = false from
    congrArg (fun d => dmem d "system") h)

/-- C3 (amended): during `create` the Tool-Use State Cache is only read and
individual turn mappings are rebuilt rather than edited, but the
caller-owned request mapping IS mutated in place, exactly at the keys
`functions`, `system` and `messages`: on any successful run, every other
key of the caller-visible request mapping looks up unchanged. -/
theorem c3_amended_request_frame (params : Dict) (st : ToolUseStatus)
    (p2 outb : Dict) (h : create params st = Except.ok (p2, outb))
    (k : String) (h1 : k ≠ "functions") (h2 : k ≠ "system")
    (h3 : k ≠ "messages") : dget p2 k = dget params k :=
  ((create_ok_inv params st p2 outb h).2 k h1 h2 h3).1

/-- Witness for the amended C3 on the concrete run over `cexParams`. -/
theorem c3_witness :
    dget cexParamsAfter "model_client_cls" =
      dget cexParams "model_client_cls" :=
  c3_amended_request_frame cexParams ⟨none, none⟩ cexParamsAfter cexOutbound
    rfl "model_client_cls" (by decide) (by decide) (by decide)

/-- C10: `create` unconditionally pops `model_client_cls` from its copy of
the params, so a call whose params lack that key can never succeed (it
faults, with the missing-key KeyError surfacing at the pop when translation
itself does not fault first). -/
theorem c10_missing_model_client_cls_faults (params : Dict)
    (st : ToolUseStatus) (h : dmem params "model_client_cls" = false) :
    (∀ r, create params st ≠ Except.ok r) ∧
    finalizeRequest params = Except.error "KeyError: model_client_cls" := by
  constructor
  · intro r hok
    obtain ⟨p2, outb⟩ := r
    have hinv := create_ok_inv params st p2 outb hok
    have hmem := finalize_needs_model_client_cls p2 outb hinv.1
    have hfr := (hinv.2 "model_client_cls" (by decide) (by decide)
      (by decide)).2
    rw [h] at hfr
    rw [hfr] at hmem
    exact Bool.noConfusion hmem
  · have hnone : dget (dset params "stream" (Val.vbool false))
        "model_client_cls" = none := by
      rw [dget_dset_ne _ _ _ _ (by decide)]
      exact dget_eq_none_of_dmem_false params _ h
    simp only [finalizeRequest, hnone]

/-- Witness for C10: a minimal request without `model_client_cls`. -/
theorem c10_witness :
    create [("messages", Val.vlist
        [Val.vobj [("role", Val.vstr "user"), ("content", Val.vstr "hi")]])]
      ⟨none, none⟩ ≠ Except.ok ([], []) ∧
    finalizeRequest [("messages", Val.vlist
        [Val.vobj [("role", Val.vstr "user"), ("content", Val.vstr "hi")]])] =
      Except.error "KeyError: model_client_cls" :=
  ⟨(c10_missing_model_client_cls_faults
      [("messages", Val.vlist
        [Val.vobj [("role", Val.vstr "user"), ("content", Val.vstr "hi")]])]
      ⟨none, none⟩ rfl).1 ([], []),
   (c10_missing_model_client_cls_faults
      [("messages", Val.vlist
        [Val.vobj [("role", Val.vstr "user"), ("content", Val.vstr "hi")]])]
      ⟨none, none⟩ rfl).2⟩

end Anthropic
